import Mathlib

/-!
# Verification of mapproxy `src/mapproxy/source/metadata.py`

Shallow embedding of the WMS metadata acquisition-and-reconciliation engine:
Python dictionaries become association lists over a `PyVal` value type (which
keeps Python's `None` distinct from an absent key), fallible code returns
`Except`, and the stateful cache of `WMSMetadataManager` becomes explicit
state passing.  The external HTTP client and capabilities parser are
parameters of the fetch operation, as they are external collaborators of the
module under verification.
-/

set_option autoImplicit false

namespace MapproxyMetadata

/-- A Python value as stored in the metadata dictionaries of
`mapproxy/source/metadata.py`: `None`, a string, a list, or a dict
(an insertion-ordered association list). -/
inductive PyVal where
  | none : PyVal
  | str : String → PyVal
  | list : List PyVal → PyVal
  | dict : List (String × PyVal) → PyVal
deriving Repr

/-- Python `v is None`. -/
def PyVal.isNone : PyVal → Bool
  | PyVal.none => true
  | _ => false

/-- Python `v == s` against a string literal: true exactly when `v` is that
string (`None == s`, `[...] == s` and `{...} == s` are all `False`). -/
def pyEqStr (v : PyVal) (s : String) : Bool :=
  match v with
  | PyVal.str t => t = s
  | _ => false

/-- A Python dict with string keys, as an insertion-ordered association list. -/
abbrev PyDict := List (String × PyVal)

/-- Python truthiness for the values that occur in this module:
`None`, `""`, `[]` and `{}` are falsy. -/
def PyVal.truthy : PyVal → Bool
  | PyVal.none => false
  | PyVal.str s => !s.isEmpty
  | PyVal.list l => !l.isEmpty
  | PyVal.dict d => !d.isEmpty

/-- First-occurrence lookup in an association list (Python `d[k]` / `k in d`:
a Python dict has unique keys, so first occurrence is the occurrence). -/
def alistGet {α : Type} (d : List (String × α)) (k : String) : Option α :=
  match d with
  | [] => Option.none
  | kv :: t => if kv.1 = k then some kv.2 else alistGet t k

/-- Python `d.get(k, default)`. -/
def alistGetD {α : Type} (d : List (String × α)) (k : String) (dflt : α) : α :=
  (alistGet d k).getD dflt

/-- Python `d[k] = v`: replace the value at an existing key in place,
otherwise append the new key at the end (insertion order). -/
def alistSet {α : Type} (d : List (String × α)) (k : String) (v : α) :
    List (String × α) :=
  match d with
  | [] => [(k, v)]
  | kv :: t => if kv.1 = k then (kv.1, v) :: t else kv :: alistSet t k v

/-- The keys of an association list. -/
def alistKeys {α : Type} (d : List (String × α)) : List String :=
  d.map Prod.fst

/-- Python `d.get(k)` on a `PyVal` dict value, raising `AttributeError`
when the receiver is not a dict (e.g. `None.get(...)`). -/
def pyGetAttrGet (v : PyVal) (k : String) (dflt : PyVal) : Except String PyVal :=
  match v with
  | PyVal.dict d => Except.ok (alistGetD d k dflt)
  | _ => Except.error "AttributeError: object has no attribute get"

/-- Python `s.lower()` on a plain string, modelled character-wise (the
ASCII lowering of `Char.toLower`, which agrees with Python on the ASCII
names this module handles). -/
def strLower (s : String) : String :=
  String.mk (s.data.map Char.toLower)

/-- Python `s.lower()` on a `PyVal`, raising `AttributeError` when the
receiver is not a string (e.g. a `name` field holding `None`). -/
def pyLower : PyVal → Except String String
  | PyVal.str s => Except.ok (strLower s)
  | _ => Except.error "AttributeError: object has no attribute lower"

mutual

/-- Python `str(v)` as used by the f-strings of the module.  `str(None)` is
`"None"` and `str` of a string is the string itself; the claims only ever
evaluate it on those two cases, the list/dict rendering is a plain
bracketed join. -/
def pyStr : PyVal → String
  | PyVal.none => "None"
  | PyVal.str s => s
  | PyVal.list l => "[" ++ pyStrJoin l ++ "]"
  | PyVal.dict d => "\x7b" ++ pyStrJoinPairs d ++ "\x7d"

def pyStrJoin : List PyVal → String
  | [] => ""
  | [v] => pyStr v
  | v :: t => pyStr v ++ ", " ++ pyStrJoin t

def pyStrJoinPairs : List (String × PyVal) → String
  | [] => ""
  | [(k, v)] => k ++ ": " ++ pyStr v
  | (k, v) :: t => k ++ ": " ++ pyStr v ++ ", " ++ pyStrJoinPairs t

end

/-- Truthiness of an optional dict argument (Python `if not auto_metadata:`
is true for `None` and for `{}`). -/
def optDictTruthy (d : Option PyDict) : Bool :=
  match d with
  | Option.none => false
  | some l => !l.isEmpty

/-- One iteration of the override loop of `merge_auto_metadata`:
`if value is not None: merged[key] = value`. -/
def mergeStep (merged : PyDict) (kv : String × PyVal) : PyDict :=
  if kv.2.isNone then merged else alistSet merged kv.1 kv.2

/--
`merge_auto_metadata(manual_metadata, auto_metadata)` from
`mapproxy/source/metadata.py` lines 209-225:

    if not auto_metadata:
        return manual_metadata or {}
    merged = auto_metadata.copy()
    if manual_metadata:
        for key, value in manual_metadata.items():
            if value is not None:
                merged[key] = value
    return merged

(The `if manual_metadata:` guard is immaterial: a falsy manual input makes
the loop body run zero times either way.)
-/
def merge_auto_metadata (manual auto : Option PyDict) : PyDict :=
  if !optDictTruthy auto then
    manual.getD []
  else
    (manual.getD []).foldl mergeStep (auto.getD [])

/-- Result of the external capabilities parser (`parse_capabilities`): an
object exposing `metadata()` (a service-level field mapping) and
`layers_list()` (an ordered sequence of raw layer field mappings). -/
structure Capabilities where
  serviceMd : PyDict
  layersList : List PyDict

/-- Response of the external HTTP client: a status code and a body. -/
structure HttpResponse where
  code : Nat
  body : String

/-- Diagnostics emitted through `log.warning` by the module. -/
inductive LogMsg where
  | fetchFailed (url : String) (err : String)
  | layerNotFound (name : String)
deriving DecidableEq, Repr

/-- The mutable state of a `WMSMetadataManager`: the `_cache` dict mapping a
key to `(timestamp, metadata)`, together with the current clock reading, a
count of network fetch attempts and the emitted warnings (the last two are
observers used to state the cache/TTL and fail-soft properties). -/
structure MState where
  cache : List (String × (Nat × PyDict))
  now : Nat
  fetchCount : Nat
  log : List LogMsg

/-- The cache key of `get_wms_metadata`:
`cache_key = f"{wms_url}|{target_layer}"`, where an absent `target_layer`
renders as the string `None`. -/
def pyFStrOpt : Option String → String
  | Option.none => "None"
  | some s => s

/-- `cache_key = f"{wms_url}|{target_layer}"` (lines 50).  It is built from
the source URL and the target layer only; the auth configuration does not
enter it, and `get_wms_metadata` has no version parameter at all. -/
def cacheKey (wmsUrl : String) (targetLayer : Option String) : String :=
  wmsUrl ++ "|" ++ pyFStrOpt targetLayer

/-- The cache check of `get_wms_metadata` (lines 53-57): a stored entry is
used exactly when it exists and `now - cached_time < 300`; a stale entry is
passed over (it stays in the dict until overwritten). -/
def cacheLookup (cache : List (String × (Nat × PyDict))) (key : String)
    (now : Nat) : Option PyDict :=
  match alistGet cache key with
  | some tv => if now - tv.1 < 300 then some tv.2 else Option.none
  | Option.none => Option.none

/-- The query-parameter update of `_fetch_capabilities` (lines 82-89):
`query_params.update({'SERVICE': ['WMS'], 'REQUEST': ['GetCapabilities']})`
over the parsed query of the base URL.  Existing keys are overwritten in
place, new keys appended; every other pre-existing parameter is kept and
re-encoded verbatim.  No `VERSION` parameter is ever added (the function has
no version argument; the comment in the source reads: no default version). -/
def buildCapabilitiesParams (queryParams : List (String × List String)) :
    List (String × List String) :=
  alistSet (alistSet queryParams "SERVICE" ["WMS"]) "REQUEST" ["GetCapabilities"]

/-- The transport-and-status part of `_fetch_capabilities` (lines 122-127):
a transport error propagates, a non-200 status raises
`Exception(f"HTTP {response.code}: {response.read()}")`, otherwise the body
is returned. -/
def fetchCapabilities (resp : Except String HttpResponse) : Except String String :=
  match resp with
  | Except.error e => Except.error e
  | Except.ok r =>
      if r.code ≠ 200 then
        Except.error ("HTTP " ++ toString r.code ++ ": " ++ r.body)
      else
        Except.ok r.body

/-- `_process_layer_metadata(layer)` (lines 175-206).  Note the abstract
cascade: both present gives `f"{title}: {abstract}"`, abstract alone is kept
unchanged, and a title alone is copied into `abstract`.  A truthy non-dict
`legend` value makes `legend.get(...)` raise. -/
def processLayerMetadata (layer : PyDict) : Except String PyDict :=
  let title := alistGetD layer "title" PyVal.none
  let abstract := alistGetD layer "abstract" PyVal.none
  let md1 : PyDict := if title.truthy then alistSet [] "title" title else []
  let md2 : PyDict :=
    if abstract.truthy && title.truthy then
      alistSet md1 "abstract" (PyVal.str (pyStr title ++ ": " ++ pyStr abstract))
    else if abstract.truthy then
      alistSet md1 "abstract" abstract
    else if title.truthy then
      alistSet md1 "abstract" title
    else
      md1
  let legend := alistGetD layer "legend" PyVal.none
  if legend.truthy then
    match pyGetAttrGet legend "url" (PyVal.str "") with
    | Except.error e => Except.error e
    | Except.ok url =>
        Except.ok (alistSet md2 "attribution" (PyVal.dict
          [("title", PyVal.str ("Layer: " ++ pyStr (alistGetD layer "name" (PyVal.str "")))),
           ("url", url)]))
  else
    Except.ok md2

/-- Tier two of `_find_layer_metadata` (lines 162-165): the first layer whose
`layer.get('name', '').lower()` equals the lowered requested name.  A `name`
key holding a non-string value (e.g. `None`) makes `.lower()` raise at that
candidate. -/
def tierCaseInsensitive (layers : List PyDict) (lnLower : String) :
    Except String (Option PyDict) :=
  match layers with
  | [] => Except.ok Option.none
  | l :: t =>
      match pyLower (alistGetD l "name" (PyVal.str "")) with
      | Except.error e => Except.error e
      | Except.ok s =>
          if s = lnLower then Except.ok (some l) else tierCaseInsensitive t lnLower

/-- Python `needle in haystack` on lists of characters. -/
def subList (needle hay : List Char) : Bool :=
  needle.isPrefixOf hay ||
    match hay with
    | [] => false
    | _ :: t => subList needle t

/-- Python substring containment `needle in haystack`. -/
def strContains (hay needle : String) : Bool :=
  subList needle.toList hay.toList

/-- Tier three of `_find_layer_metadata` (lines 168-170): the first layer
with `layer_name_lower in layer.get('name', '').lower()`. -/
def tierSubstring (layers : List PyDict) (lnLower : String) :
    Except String (Option PyDict) :=
  match layers with
  | [] => Except.ok Option.none
  | l :: t =>
      match pyLower (alistGetD l "name" (PyVal.str "")) with
      | Except.error e => Except.error e
      | Except.ok s =>
          if strContains s lnLower then Except.ok (some l) else tierSubstring t lnLower

/-- `_find_layer_metadata(capabilities, layer_name)` (lines 152-173): exact
match over all layers first, then case-insensitive, then substring
containment, processing the first hit; with no match it returns `{}` and
logs a warning. -/
def findLayerMetadata (caps : Capabilities) (layerName : String) :
    Except String (PyDict × List LogMsg) :=
  let layers := caps.layersList
  match layers.find? (fun l => pyEqStr (alistGetD l "name" PyVal.none) layerName) with
  | some l => Except.map (fun md => (md, [])) (processLayerMetadata l)
  | Option.none =>
    let lnLower := strLower layerName
    match tierCaseInsensitive layers lnLower with
    | Except.error e => Except.error e
    | Except.ok (some l) => Except.map (fun md => (md, [])) (processLayerMetadata l)
    | Except.ok Option.none =>
      match tierSubstring layers lnLower with
      | Except.error e => Except.error e
      | Except.ok (some l) => Except.map (fun md => (md, [])) (processLayerMetadata l)
      | Except.ok Option.none => Except.ok ([], [LogMsg.layerNotFound layerName])

/-- `_extract_metadata(capabilities, target_layer)` (lines 129-150): when
the service mapping is truthy, a `service` record is built that always
carries the five keys `title`, `abstract`, `contact`, `fees`,
`access_constraints` with `service_md.get(...)` values (`None` when the
parser omits a field — nothing is filtered); when a truthy (non-empty)
target layer is given and resolves to a truthy record, it is stored under
`layer`. -/
def extractMetadata (caps : Capabilities) (targetLayer : Option String) :
    Except String (PyDict × List LogMsg) :=
  let md0 : PyDict :=
    if (PyVal.dict caps.serviceMd).truthy then
      [("service", PyVal.dict
        [("title", alistGetD caps.serviceMd "title" PyVal.none),
         ("abstract", alistGetD caps.serviceMd "abstract" PyVal.none),
         ("contact", alistGetD caps.serviceMd "contact" PyVal.none),
         ("fees", alistGetD caps.serviceMd "fees" PyVal.none),
         ("access_constraints", alistGetD caps.serviceMd "access_constraints" PyVal.none)])]
    else []
  match targetLayer with
  | Option.none => Except.ok (md0, [])
  | some name =>
      if name.isEmpty then Except.ok (md0, []) else
      match findLayerMetadata caps name with
      | Except.error e => Except.error e
      | Except.ok lw =>
          if (PyVal.dict lw.1).truthy then
            Except.ok (alistSet md0 "layer" (PyVal.dict lw.1), lw.2)
          else
            Except.ok (md0, lw.2)

/-- The body of the `try` block of `get_wms_metadata` (lines 59-72): fetch
the capabilities document, parse it with the external parser, extract the
metadata.  Any error in any stage propagates to the boundary. -/
def pipelineResult (parse : String → Except String Capabilities)
    (resp : Except String HttpResponse) (targetLayer : Option String) :
    Except String (PyDict × List LogMsg) :=
  match fetchCapabilities resp with
  | Except.error e => Except.error e
  | Except.ok doc =>
      match parse doc with
      | Except.error e => Except.error e
      | Except.ok caps => extractMetadata caps targetLayer

/-- `get_wms_metadata(wms_url, auth_config, target_layer)` (lines 38-76)
with the manager state passed explicitly.  The external HTTP client and
parser enter as parameters: `resp` is the outcome the client produces for
this invocation (the auth configuration only shapes that outcome, it is not
read anywhere else).  A fresh cache entry is returned directly; otherwise
the pipeline runs inside `try`: on success the result is cached (at the
current clock) and returned, on any error `{}` is returned, a warning is
logged, and the cache is left untouched. -/
def getWmsMetadata (parse : String → Except String Capabilities)
    (resp : Except String HttpResponse) (st : MState) (wmsUrl : String)
    (authConfig : Option PyDict) (targetLayer : Option String) :
    PyDict × MState :=
  match cacheLookup st.cache (cacheKey wmsUrl targetLayer) st.now with
  | some md => (md, st)
  | Option.none =>
      match pipelineResult parse resp targetLayer with
      | Except.ok mw =>
          (mw.1,
           { st with cache := alistSet st.cache (cacheKey wmsUrl targetLayer) (st.now, mw.1),
                     fetchCount := st.fetchCount + 1,
                     log := st.log ++ mw.2 })
      | Except.error e =>
          ([],
           { st with fetchCount := st.fetchCount + 1,
                     log := st.log ++ [LogMsg.fetchFailed wmsUrl e] })

/-! ## Association-list lemmas -/

theorem alistGet_set_self {α : Type} (d : List (String × α)) (k : String) (v : α) :
    alistGet (alistSet d k v) k = some v := by
  induction d with
  | nil => simp [alistSet, alistGet]
  | cons kv t ih =>
      by_cases h : kv.1 = k
      · simp [alistSet, h, alistGet]
      · simp [alistSet, h, alistGet, ih]

theorem alistGet_set_ne {α : Type} (d : List (String × α)) (k k2 : String) (v : α)
    (h : k2 ≠ k) : alistGet (alistSet d k v) k2 = alistGet d k2 := by
  induction d with
  | nil => simp [alistSet, alistGet, Ne.symm h]
  | cons kv t ih =>
      by_cases hk : kv.1 = k
      · subst hk
        simp [alistSet, alistGet, Ne.symm h]
      · simp only [alistSet, if_neg hk]
        by_cases hk2 : kv.1 = k2
        · simp [alistGet, hk2]
        · simp [alistGet, hk2, ih]

theorem alistGet_eq_none_iff {α : Type} (d : List (String × α)) (k : String) :
    alistGet d k = Option.none ↔ k ∉ alistKeys d := by
  induction d with
  | nil => simp [alistGet, alistKeys]
  | cons kv t ih =>
      by_cases h : kv.1 = k
      · simp [alistGet, alistKeys, h]
      · simp [alistGet, alistKeys, h, ih, Ne.symm h]

/-! ## Lemmas about the override loop of `merge_auto_metadata` -/

theorem mergeFold_get_not_mem (m : PyDict) (acc : PyDict) (k : String)
    (h : k ∉ alistKeys m) :
    alistGet (m.foldl mergeStep acc) k = alistGet acc k := by
  induction m generalizing acc with
  | nil => simp
  | cons kv t ih =>
      simp only [alistKeys, List.map_cons, List.mem_cons, not_or] at h
      rw [List.foldl_cons, ih _ (by simpa [alistKeys] using h.2)]
      unfold mergeStep
      by_cases hn : kv.2.isNone
      · simp [hn]
      · simp [hn, alistGet_set_ne _ _ _ _ h.1]

theorem mergeFold_get_override (m : PyDict) (acc : PyDict) (k : String) (v : PyVal)
    (hnd : (alistKeys m).Nodup) (hget : alistGet m k = some v)
    (hv : v.isNone = false) :
    alistGet (m.foldl mergeStep acc) k = some v := by
  induction m generalizing acc with
  | nil => simp [alistGet] at hget
  | cons kv t ih =>
      simp only [alistKeys, List.map_cons, List.nodup_cons] at hnd
      rw [List.foldl_cons]
      by_cases h : kv.1 = k
      · have hv2 : kv.2 = v := by
          have := hget
          simp only [alistGet, if_pos h] at this
          exact Option.some.inj this
        have hkt : k ∉ alistKeys t := h ▸ hnd.1
        rw [mergeFold_get_not_mem t _ k hkt]
        unfold mergeStep
        rw [hv2, if_neg (by simp [hv])]
        exact h ▸ alistGet_set_self acc kv.1 v
      · have hget2 : alistGet t k = some v := by
          simpa only [alistGet, if_neg h] using hget
        exact ih (mergeStep acc kv) hnd.2 hget2

theorem mergeFold_get_skip (m : PyDict) (acc : PyDict) (k : String)
    (hnd : (alistKeys m).Nodup)
    (hget : alistGet m k = Option.none ∨ alistGet m k = some PyVal.none) :
    alistGet (m.foldl mergeStep acc) k = alistGet acc k := by
  induction m generalizing acc with
  | nil => simp
  | cons kv t ih =>
      simp only [alistKeys, List.map_cons, List.nodup_cons] at hnd
      rw [List.foldl_cons]
      by_cases h : kv.1 = k
      · have hv2 : kv.2 = PyVal.none := by
          rcases hget with hg | hg
          · simp [alistGet, if_pos h] at hg
          · simpa only [alistGet, if_pos h, Option.some.injEq] using hg
        have hkt : k ∉ alistKeys t := h ▸ hnd.1
        rw [mergeFold_get_not_mem t _ k hkt]
        unfold mergeStep
        rw [hv2]
        simp [PyVal.isNone]
      · have hget2 : alistGet t k = Option.none ∨ alistGet t k = some PyVal.none := by
          simpa only [alistGet, if_neg h] using hget
        rw [ih (mergeStep acc kv) hnd.2 hget2]
        unfold mergeStep
        by_cases hn : kv.2.isNone
        · simp [hn]
        · simp [hn, alistGet_set_ne _ _ _ _ (fun hh => h hh.symm)]

/-! ## Reduction lemmas for `getWmsMetadata` -/

theorem getWms_cache_hit (parse : String → Except String Capabilities)
    (resp : Except String HttpResponse) (st : MState) (url : String)
    (auth : Option PyDict) (tl : Option String) (md : PyDict)
    (h : cacheLookup st.cache (cacheKey url tl) st.now = some md) :
    getWmsMetadata parse resp st url auth tl = (md, st) := by
  unfold getWmsMetadata
  rw [h]

theorem getWms_miss_ok (parse : String → Except String Capabilities)
    (resp : Except String HttpResponse) (st : MState) (url : String)
    (auth : Option PyDict) (tl : Option String) (md : PyDict) (ws : List LogMsg)
    (hmiss : cacheLookup st.cache (cacheKey url tl) st.now = Option.none)
    (hok : pipelineResult parse resp tl = Except.ok (md, ws)) :
    getWmsMetadata parse resp st url auth tl
      = (md, { st with cache := alistSet st.cache (cacheKey url tl) (st.now, md),
                       fetchCount := st.fetchCount + 1,
                       log := st.log ++ ws }) := by
  unfold getWmsMetadata
  rw [hmiss, hok]

theorem getWms_miss_error (parse : String → Except String Capabilities)
    (resp : Except String HttpResponse) (st : MState) (url : String)
    (auth : Option PyDict) (tl : Option String) (e : String)
    (hmiss : cacheLookup st.cache (cacheKey url tl) st.now = Option.none)
    (herr : pipelineResult parse resp tl = Except.error e) :
    getWmsMetadata parse resp st url auth tl
      = ([], { st with fetchCount := st.fetchCount + 1,
                       log := st.log ++ [LogMsg.fetchFailed url e] }) := by
  unfold getWmsMetadata
  rw [hmiss, herr]

theorem cacheLookup_set_fresh (cache : List (String × (Nat × PyDict)))
    (key : String) (now : Nat) (md : PyDict) :
    cacheLookup (alistSet cache key (now, md)) key now = some md := by
  unfold cacheLookup
  rw [alistGet_set_self]
  simp

/-! ## Claim theorems: the merger -/

/-- C1: in `merge_auto_metadata`, a key with a non-null override (manual)
value carries the override value in the result, whatever the auto value is;
a key the override omits or maps to null carries the auto value whenever
the auto record supplies one — a null override never suppresses an
auto-fetched value. -/
theorem merge_override_precedence (manual auto : PyDict) (k : String)
    (hnd : (alistKeys manual).Nodup) :
    (∀ v, alistGet manual k = some v → v.isNone = false →
      alistGet (merge_auto_metadata (some manual) (some auto)) k = some v) ∧
    ((alistGet manual k = Option.none ∨ alistGet manual k = some PyVal.none) →
      ∀ w, alistGet auto k = some w →
      alistGet (merge_auto_metadata (some manual) (some auto)) k = some w) := by
  constructor
  · intro v hget hv
    unfold merge_auto_metadata
    by_cases ha : optDictTruthy (some auto)
    · simp only [ha, Bool.not_true, Bool.false_eq_true, if_false, Option.getD_some]
      exact mergeFold_get_override manual auto k v hnd hget hv
    · simp only [Bool.not_eq_true] at ha
      simp only [ha, Bool.not_false, if_true, Option.getD_some]
      exact hget
  · intro hskip w hw
    unfold merge_auto_metadata
    have ha : optDictTruthy (some auto) = true := by
      unfold optDictTruthy
      cases auto with
      | nil => simp [alistGet] at hw
      | cons kv t => simp
    simp only [ha, Bool.not_true, Bool.false_eq_true, if_false, Option.getD_some]
    rw [mergeFold_get_skip manual auto k hnd hskip]
    exact hw

/-- C1 witness: override `{title: "X", fees: None}` against auto
`{title: "auto", fees: "0"}` — the non-null override title wins, the null
override fees does not suppress the auto fees value. -/
theorem merge_override_precedence_witness :
    ((alistKeys [("title", PyVal.str "X"), ("fees", PyVal.none)]).Nodup ∧
     alistGet [("title", PyVal.str "X"), ("fees", PyVal.none)] "title"
       = some (PyVal.str "X") ∧
     (PyVal.str "X").isNone = false) ∧
    alistGet (merge_auto_metadata
        (some [("title", PyVal.str "X"), ("fees", PyVal.none)])
        (some [("title", PyVal.str "auto"), ("fees", PyVal.str "0")])) "title"
      = some (PyVal.str "X") ∧
    alistGet (merge_auto_metadata
        (some [("title", PyVal.str "X"), ("fees", PyVal.none)])
        (some [("title", PyVal.str "auto"), ("fees", PyVal.str "0")])) "fees"
      = some (PyVal.str "0") := by
  refine ⟨⟨by decide, rfl, rfl⟩, ?_, ?_⟩
  · exact (merge_override_precedence
      [("title", PyVal.str "X"), ("fees", PyVal.none)]
      [("title", PyVal.str "auto"), ("fees", PyVal.str "0")] "title"
      (by decide)).1 (PyVal.str "X") rfl rfl
  · exact (merge_override_precedence
      [("title", PyVal.str "X"), ("fees", PyVal.none)]
      [("title", PyVal.str "auto"), ("fees", PyVal.str "0")] "fees"
      (by decide)).2 (Or.inr rfl) (PyVal.str "0") rfl

/-- C9 counterexample: `merge_auto_metadata({title: "X"}, {keywords: ["a","b"]})`
keeps the bare `keywords` key and introduces no `keyword_list` key — the
function performs no keyword shape transform at all. -/
theorem merge_keywords_counterexample :
    alistGet (merge_auto_metadata (some [("title", PyVal.str "X")])
        (some [("keywords", PyVal.list [PyVal.str "a", PyVal.str "b"])])) "keywords"
      = some (PyVal.list [PyVal.str "a", PyVal.str "b"]) ∧
    alistGet (merge_auto_metadata (some [("title", PyVal.str "X")])
        (some [("keywords", PyVal.list [PyVal.str "a", PyVal.str "b"])])) "keyword_list"
      = Option.none := by
  exact ⟨rfl, rfl⟩

/-- C9 (amended): `merge_auto_metadata` applies no keyword shape transform:
when the merged record would carry a `keywords` value it carries it under
the bare `keywords` key, and no `keyword_list` key is introduced when
neither input has one. -/
theorem merge_no_keyword_transform (manual auto : PyDict)
    (hnd : (alistKeys manual).Nodup)
    (hm : alistGet manual "keyword_list" = Option.none)
    (ha : alistGet auto "keyword_list" = Option.none)
    (hk : alistGet manual "keywords" = Option.none ∨
          alistGet manual "keywords" = some PyVal.none)
    (ks : PyVal) (hks : alistGet auto "keywords" = some ks) :
    alistGet (merge_auto_metadata (some manual) (some auto)) "keywords" = some ks ∧
    alistGet (merge_auto_metadata (some manual) (some auto)) "keyword_list"
      = Option.none := by
  have htr : optDictTruthy (some auto) = true := by
    unfold optDictTruthy
    cases auto with
    | nil => simp [alistGet] at hks
    | cons kv t => simp
  constructor
  · unfold merge_auto_metadata
    simp only [htr, Bool.not_true, Bool.false_eq_true, if_false, Option.getD_some]
    rw [mergeFold_get_skip manual auto "keywords" hnd hk]
    exact hks
  · unfold merge_auto_metadata
    simp only [htr, Bool.not_true, Bool.false_eq_true, if_false, Option.getD_some]
    rw [mergeFold_get_not_mem manual auto "keyword_list"
      ((alistGet_eq_none_iff manual "keyword_list").mp hm)]
    exact ha

/-- C9 amended-claim witness at the concrete input of the original claim. -/
theorem merge_no_keyword_transform_witness :
    alistGet (merge_auto_metadata (some [("title", PyVal.str "X")])
        (some [("keywords", PyVal.list [PyVal.str "a", PyVal.str "b"])])) "keywords"
      = some (PyVal.list [PyVal.str "a", PyVal.str "b"]) ∧
    alistGet (merge_auto_metadata (some [("title", PyVal.str "X")])
        (some [("keywords", PyVal.list [PyVal.str "a", PyVal.str "b"])])) "keyword_list"
      = Option.none := by
  exact merge_no_keyword_transform [("title", PyVal.str "X")]
    [("keywords", PyVal.list [PyVal.str "a", PyVal.str "b"])]
    (by decide) rfl rfl (Or.inl rfl)
    (PyVal.list [PyVal.str "a", PyVal.str "b"]) rfl

/-- C10: with a falsy auto input (`None` or `{}`), `merge_auto_metadata`
returns the manual mapping itself unchanged (so null-valued manual keys are
retained — the non-null filter runs only in the non-empty-auto branch), and
`{}` when the manual mapping is absent. -/
theorem merge_empty_auto_identity :
    (∀ manual : PyDict, merge_auto_metadata (some manual) Option.none = manual) ∧
    (∀ manual : PyDict, merge_auto_metadata (some manual) (some []) = manual) ∧
    merge_auto_metadata Option.none Option.none = [] ∧
    merge_auto_metadata Option.none (some []) = [] := by
  refine ⟨fun manual => ?_, fun manual => ?_, rfl, rfl⟩ <;>
    simp [merge_auto_metadata, optDictTruthy]

/-! ## Claim theorems: the fetcher boundary and the cache -/

/-- C2: whenever the fetch pipeline of `get_wms_metadata` fails — transport
error, non-success HTTP status, or parse failure — the boundary catches it
and returns `{}` with a warning logged and the cache untouched; the
embedding is a total function, so no exception crosses the boundary.  The
last three conjuncts show each of the three failure kinds is indeed a
pipeline error. -/
theorem get_wms_metadata_fail_soft :
    (∀ (parse : String → Except String Capabilities)
        (resp : Except String HttpResponse) (st : MState) (url : String)
        (auth : Option PyDict) (tl : Option String) (e : String),
      cacheLookup st.cache (cacheKey url tl) st.now = Option.none →
      pipelineResult parse resp tl = Except.error e →
      getWmsMetadata parse resp st url auth tl
        = ([], { st with fetchCount := st.fetchCount + 1,
                         log := st.log ++ [LogMsg.fetchFailed url e] })) ∧
    (∀ (parse : String → Except String Capabilities) (tl : Option String)
        (e : String),
      pipelineResult parse (Except.error e) tl = Except.error e) ∧
    (∀ (parse : String → Except String Capabilities) (tl : Option String)
        (r : HttpResponse),
      r.code ≠ 200 →
      pipelineResult parse (Except.ok r) tl
        = Except.error ("HTTP " ++ toString r.code ++ ": " ++ r.body)) ∧
    (∀ (parse : String → Except String Capabilities) (tl : Option String)
        (r : HttpResponse) (e : String),
      r.code = 200 → parse r.body = Except.error e →
      pipelineResult parse (Except.ok r) tl = Except.error e) := by
  refine ⟨?_, ?_, ?_, ?_⟩
  · intro parse resp st url auth tl e hmiss herr
    exact getWms_miss_error parse resp st url auth tl e hmiss herr
  · intro parse tl e
    rfl
  · intro parse tl r h
    simp [pipelineResult, fetchCapabilities, h]
  · intro parse tl r e h hp
    simp [pipelineResult, fetchCapabilities, h, hp]

/-- C2 witness: a transport error on an empty cache yields `{}` plus a
logged warning. -/
theorem get_wms_metadata_fail_soft_witness :
    getWmsMetadata (fun _ => Except.error "parse error")
        (Except.error "connection refused") ⟨[], 0, 0, []⟩ "http://bad"
        Option.none Option.none
      = ([], ⟨[], 0, 1, [LogMsg.fetchFailed "http://bad" "connection refused"]⟩) ∧
    pipelineResult (fun _ => Except.error "parse error")
        (Except.ok ⟨503, "oops"⟩) Option.none
      = Except.error "HTTP 503: oops" := by
  constructor
  · exact get_wms_metadata_fail_soft.1 (fun _ => Except.error "parse error")
      (Except.error "connection refused") ⟨[], 0, 0, []⟩ "http://bad"
      Option.none Option.none "connection refused" rfl rfl
  · exact get_wms_metadata_fail_soft.2.2.1 (fun _ => Except.error "parse error")
      Option.none ⟨503, "oops"⟩ (by decide)

/-- C3: a stored cache entry is served exactly while `now - timestamp < 300`
(first conjunct); with a fixed clock, two calls on the same key starting
from a cold cache perform exactly one fetch and the second call returns the
stored value with the state unchanged (second conjunct); a call finding a
stale entry fetches anew and overwrites the entry with a fresh timestamp
(third conjunct). -/
theorem cache_ttl_behavior :
    (∀ (cache : List (String × (Nat × PyDict))) (url : String)
        (tl : Option String) (ts now : Nat) (v : PyDict),
      alistGet cache (cacheKey url tl) = some (ts, v) →
      (cacheLookup cache (cacheKey url tl) now = some v ↔ now - ts < 300)) ∧
    (∀ (parse : String → Except String Capabilities)
        (resp : Except String HttpResponse) (st : MState) (url : String)
        (auth : Option PyDict) (tl : Option String) (md : PyDict)
        (ws : List LogMsg),
      cacheLookup st.cache (cacheKey url tl) st.now = Option.none →
      pipelineResult parse resp tl = Except.ok (md, ws) →
      ((getWmsMetadata parse resp st url auth tl).1 = md ∧
       (getWmsMetadata parse resp
          (getWmsMetadata parse resp st url auth tl).2 url auth tl).1 = md ∧
       (getWmsMetadata parse resp
          (getWmsMetadata parse resp st url auth tl).2 url auth tl).2
         = (getWmsMetadata parse resp st url auth tl).2 ∧
       (getWmsMetadata parse resp st url auth tl).2.fetchCount
         = st.fetchCount + 1)) ∧
    (∀ (parse : String → Except String Capabilities)
        (resp : Except String HttpResponse) (st : MState) (url : String)
        (auth : Option PyDict) (tl : Option String) (ts : Nat) (v md : PyDict)
        (ws : List LogMsg),
      alistGet st.cache (cacheKey url tl) = some (ts, v) →
      ¬ (st.now - ts < 300) →
      pipelineResult parse resp tl = Except.ok (md, ws) →
      ((getWmsMetadata parse resp st url auth tl).1 = md ∧
       (getWmsMetadata parse resp st url auth tl).2.fetchCount
         = st.fetchCount + 1 ∧
       alistGet (getWmsMetadata parse resp st url auth tl).2.cache
           (cacheKey url tl)
         = some (st.now, md))) := by
  refine ⟨?_, ?_, ?_⟩
  · intro cache url tl ts now v hget
    constructor
    · intro hlook
      by_contra h
      simp [cacheLookup, hget, h] at hlook
    · intro h
      simp [cacheLookup, hget, h]
  · intro parse resp st url auth tl md ws hmiss hok
    have h1 := getWms_miss_ok parse resp st url auth tl md ws hmiss hok
    have h2 : getWmsMetadata parse resp
        (getWmsMetadata parse resp st url auth tl).2 url auth tl
          = (md, (getWmsMetadata parse resp st url auth tl).2) := by
      rw [h1]
      exact getWms_cache_hit parse resp _ url auth tl md
        (cacheLookup_set_fresh st.cache (cacheKey url tl) st.now md)
    refine ⟨by rw [h1], by rw [h2], by rw [h2], by rw [h1]⟩
  · intro parse resp st url auth tl ts v md ws hget hstale hok
    have hmiss : cacheLookup st.cache (cacheKey url tl) st.now = Option.none := by
      simp [cacheLookup, hget, hstale]
    have h1 := getWms_miss_ok parse resp st url auth tl md ws hmiss hok
    refine ⟨by rw [h1], by rw [h1], ?_⟩
    rw [h1]
    exact alistGet_set_self st.cache (cacheKey url tl) (st.now, md)

/-- C3 witness: a cold-cache double call fetches once, and a stale entry
(clock 400, timestamp 10) is refreshed and overwritten. -/
theorem cache_ttl_behavior_witness :
    (cacheLookup [(cacheKey "u" Option.none, ((10 : Nat), ([("fees", PyVal.str "0")] : PyDict)))]
        (cacheKey "u" Option.none) 20 = some [("fees", PyVal.str "0")] ↔ 20 - 10 < 300) ∧
    ((getWmsMetadata (fun _ => Except.ok ⟨[("title", PyVal.str "T")], []⟩)
        (Except.ok ⟨200, "body"⟩)
        (getWmsMetadata (fun _ => Except.ok ⟨[("title", PyVal.str "T")], []⟩)
          (Except.ok ⟨200, "body"⟩) ⟨[], 50, 0, []⟩ "u" Option.none Option.none).2
        "u" Option.none Option.none).2
      = (getWmsMetadata (fun _ => Except.ok ⟨[("title", PyVal.str "T")], []⟩)
          (Except.ok ⟨200, "body"⟩) ⟨[], 50, 0, []⟩ "u" Option.none Option.none).2 ∧
     (getWmsMetadata (fun _ => Except.ok ⟨[("title", PyVal.str "T")], []⟩)
        (Except.ok ⟨200, "body"⟩) ⟨[], 50, 0, []⟩ "u" Option.none Option.none).2.fetchCount
      = 0 + 1) ∧
    alistGet (getWmsMetadata (fun _ => Except.ok ⟨[("title", PyVal.str "T")], []⟩)
        (Except.ok ⟨200, "body"⟩)
        ⟨[(cacheKey "u" Option.none, (10, [("old", PyVal.str "x")]))], 400, 0, []⟩
        "u" Option.none Option.none).2.cache (cacheKey "u" Option.none)
      = some (400, [("service", PyVal.dict
          [("title", PyVal.str "T"), ("abstract", PyVal.none),
           ("contact", PyVal.none), ("fees", PyVal.none),
           ("access_constraints", PyVal.none)])]) := by
  refine ⟨?_, ⟨?_, ?_⟩, ?_⟩
  · exact cache_ttl_behavior.1
      [(cacheKey "u" Option.none, (10, [("fees", PyVal.str "0")]))]
      "u" Option.none 10 20 [("fees", PyVal.str "0")] rfl
  · exact (cache_ttl_behavior.2.1 (fun _ => Except.ok ⟨[("title", PyVal.str "T")], []⟩)
      (Except.ok ⟨200, "body"⟩) ⟨[], 50, 0, []⟩ "u" Option.none Option.none
      [("service", PyVal.dict
          [("title", PyVal.str "T"), ("abstract", PyVal.none),
           ("contact", PyVal.none), ("fees", PyVal.none),
           ("access_constraints", PyVal.none)])] [] rfl rfl).2.2.1
  · exact (cache_ttl_behavior.2.1 (fun _ => Except.ok ⟨[("title", PyVal.str "T")], []⟩)
      (Except.ok ⟨200, "body"⟩) ⟨[], 50, 0, []⟩ "u" Option.none Option.none
      [("service", PyVal.dict
          [("title", PyVal.str "T"), ("abstract", PyVal.none),
           ("contact", PyVal.none), ("fees", PyVal.none),
           ("access_constraints", PyVal.none)])] [] rfl rfl).2.2.2
  · exact (cache_ttl_behavior.2.2 (fun _ => Except.ok ⟨[("title", PyVal.str "T")], []⟩)
      (Except.ok ⟨200, "body"⟩)
      ⟨[(cacheKey "u" Option.none, (10, [("old", PyVal.str "x")]))], 400, 0, []⟩
      "u" Option.none Option.none 10 [("old", PyVal.str "x")]
      [("service", PyVal.dict
          [("title", PyVal.str "T"), ("abstract", PyVal.none),
           ("contact", PyVal.none), ("fees", PyVal.none),
           ("access_constraints", PyVal.none)])] [] rfl (by decide) rfl).2.2

/-- C7 counterexample: two calls agreeing on URL and target layer but with
different auth configurations share the cache entry: after a first call with
auth `{username: alice}`, a second call with auth `{username: bob}` (and a
failing transport) is served from the first call's entry — same value, no
second fetch — refuting "distinct cache keys and never share a cache
entry". -/
theorem cache_key_auth_counterexample :
    (getWmsMetadata (fun _ => Except.ok ⟨[("title", PyVal.str "T")], []⟩)
        (Except.error "connection refused")
        (getWmsMetadata (fun _ => Except.ok ⟨[("title", PyVal.str "T")], []⟩)
          (Except.ok ⟨200, "doc"⟩) ⟨[], 1000, 0, []⟩ "http://x/wms"
          (some [("username", PyVal.str "alice")]) Option.none).2
        "http://x/wms" (some [("username", PyVal.str "bob")]) Option.none).1
      = (getWmsMetadata (fun _ => Except.ok ⟨[("title", PyVal.str "T")], []⟩)
          (Except.ok ⟨200, "doc"⟩) ⟨[], 1000, 0, []⟩ "http://x/wms"
          (some [("username", PyVal.str "alice")]) Option.none).1 ∧
    (getWmsMetadata (fun _ => Except.ok ⟨[("title", PyVal.str "T")], []⟩)
        (Except.error "connection refused")
        (getWmsMetadata (fun _ => Except.ok ⟨[("title", PyVal.str "T")], []⟩)
          (Except.ok ⟨200, "doc"⟩) ⟨[], 1000, 0, []⟩ "http://x/wms"
          (some [("username", PyVal.str "alice")]) Option.none).2
        "http://x/wms" (some [("username", PyVal.str "bob")]) Option.none).2.fetchCount
      = 1 ∧
    (some [("username", PyVal.str "alice")] : Option PyDict)
      ≠ some [("username", PyVal.str "bob")] := by
  refine ⟨rfl, rfl, ?_⟩
  intro h
  simp only [Option.some.injEq, List.cons.injEq, Prod.mk.injEq,
    PyVal.str.injEq] at h
  exact absurd h.1.2 (by decide)

/-- C7 (amended): the cache key of `get_wms_metadata` is the composite of
the source URL and the target layer name only (absent rendered as `None`);
the function has no version parameter and the auth configuration does not
enter the key, so after one successful fetch any later call agreeing on URL
and target layer — whatever its auth configuration, parser or transport
outcome — is served from the same cache entry without a new fetch. -/
theorem cache_key_composition
    (parse : String → Except String Capabilities)
    (resp : Except String HttpResponse) (st : MState) (url : String)
    (auth1 auth2 : Option PyDict) (tl : Option String) (md : PyDict)
    (ws : List LogMsg)
    (hmiss : cacheLookup st.cache (cacheKey url tl) st.now = Option.none)
    (hok : pipelineResult parse resp tl = Except.ok (md, ws)) :
    ∀ (parse2 : String → Except String Capabilities)
      (resp2 : Except String HttpResponse),
      (getWmsMetadata parse2 resp2
          (getWmsMetadata parse resp st url auth1 tl).2 url auth2 tl).1 = md ∧
      (getWmsMetadata parse2 resp2
          (getWmsMetadata parse resp st url auth1 tl).2 url auth2 tl).2.fetchCount
        = st.fetchCount + 1 ∧
      cacheKey url tl = url ++ "|" ++ pyFStrOpt tl := by
  intro parse2 resp2
  have h1 := getWms_miss_ok parse resp st url auth1 tl md ws hmiss hok
  have h2 : getWmsMetadata parse2 resp2
      (getWmsMetadata parse resp st url auth1 tl).2 url auth2 tl
        = (md, (getWmsMetadata parse resp st url auth1 tl).2) := by
    rw [h1]
    exact getWms_cache_hit parse2 resp2 _ url auth2 tl md
      (cacheLookup_set_fresh st.cache (cacheKey url tl) st.now md)
  refine ⟨by rw [h2], by rw [h2, h1], rfl⟩

/-- C7 amended-claim witness: same URL and layer, different auth records,
one shared entry. -/
theorem cache_key_composition_witness :
    (getWmsMetadata (fun _ => Except.error "down") (Except.error "down")
        (getWmsMetadata (fun _ => Except.ok ⟨[("title", PyVal.str "T")], []⟩)
          (Except.ok ⟨200, "doc"⟩) ⟨[], 1000, 0, []⟩ "http://x/wms"
          (some [("username", PyVal.str "alice")]) Option.none).2
        "http://x/wms" (some [("username", PyVal.str "bob")]) Option.none).1
      = [("service", PyVal.dict
          [("title", PyVal.str "T"), ("abstract", PyVal.none),
           ("contact", PyVal.none), ("fees", PyVal.none),
           ("access_constraints", PyVal.none)])] ∧
    cacheKey "http://x/wms" Option.none = "http://x/wms" ++ "|" ++ pyFStrOpt Option.none := by
  have h := cache_key_composition
    (fun _ => Except.ok ⟨[("title", PyVal.str "T")], []⟩) (Except.ok ⟨200, "doc"⟩)
    ⟨[], 1000, 0, []⟩ "http://x/wms"
    (some [("username", PyVal.str "alice")]) (some [("username", PyVal.str "bob")])
    Option.none
    [("service", PyVal.dict
        [("title", PyVal.str "T"), ("abstract", PyVal.none),
         ("contact", PyVal.none), ("fees", PyVal.none),
         ("access_constraints", PyVal.none)])] [] rfl rfl
    (fun _ => Except.error "down") (Except.error "down")
  exact ⟨h.1, h.2.2⟩

/-! ## Claim theorems: the URL builder -/

/-- C6 counterexample: the fetch operation offers no way to supply a
version, yet a base URL whose query already carries `VERSION=1.1.1` yields a
request URL that still contains that `VERSION` parameter — so "contains a
VERSION parameter if and only if a version string was supplied by the
caller" fails (no version is supplied here, and none can be). -/
theorem build_capabilities_version_counterexample :
    alistGet (buildCapabilitiesParams [("VERSION", ["1.1.1"])]) "VERSION"
      = some ["1.1.1"] ∧
    buildCapabilitiesParams [("VERSION", ["1.1.1"])]
      = [("VERSION", ["1.1.1"]), ("SERVICE", ["WMS"]),
         ("REQUEST", ["GetCapabilities"])] := by
  exact ⟨rfl, rfl⟩

/-- C6 (amended): the constructed capabilities-request parameters preserve
every pre-existing query parameter of the base URL other than `SERVICE` and
`REQUEST`, carry the uppercase `SERVICE=WMS` and `REQUEST=GetCapabilities`
(added or overwritten), and carry a `VERSION` parameter exactly as the base
URL did: `_fetch_capabilities` takes no version argument and never adds or
defaults a `VERSION` key of its own. -/
theorem build_capabilities_params_spec (q : List (String × List String)) :
    (∀ k, k ≠ "SERVICE" → k ≠ "REQUEST" →
      alistGet (buildCapabilitiesParams q) k = alistGet q k) ∧
    alistGet (buildCapabilitiesParams q) "SERVICE" = some ["WMS"] ∧
    alistGet (buildCapabilitiesParams q) "REQUEST" = some ["GetCapabilities"] ∧
    alistGet (buildCapabilitiesParams q) "VERSION" = alistGet q "VERSION" := by
  refine ⟨?_, ?_, ?_, ?_⟩
  · intro k h1 h2
    unfold buildCapabilitiesParams
    rw [alistGet_set_ne _ _ _ _ h2, alistGet_set_ne _ _ _ _ h1]
  · unfold buildCapabilitiesParams
    rw [alistGet_set_ne _ _ _ _ (by decide), alistGet_set_self]
  · unfold buildCapabilitiesParams
    rw [alistGet_set_self]
  · unfold buildCapabilitiesParams
    rw [alistGet_set_ne _ _ _ _ (by decide), alistGet_set_ne _ _ _ _ (by decide)]

/-- C6 amended-claim witness at the spec example `http://x/wms?map=1`:
`map=1` preserved, `SERVICE` and `REQUEST` present, no `VERSION` key. -/
theorem build_capabilities_params_spec_witness :
    alistGet (buildCapabilitiesParams [("map", ["1"])]) "map" = some ["1"] ∧
    alistGet (buildCapabilitiesParams [("map", ["1"])]) "SERVICE" = some ["WMS"] ∧
    alistGet (buildCapabilitiesParams [("map", ["1"])]) "REQUEST"
      = some ["GetCapabilities"] ∧
    alistGet (buildCapabilitiesParams [("map", ["1"])]) "VERSION" = Option.none := by
  refine ⟨(build_capabilities_params_spec [("map", ["1"])]).1 "map"
    (by decide) (by decide), (build_capabilities_params_spec [("map", ["1"])]).2.1,
    (build_capabilities_params_spec [("map", ["1"])]).2.2.1, ?_⟩
  rw [(build_capabilities_params_spec [("map", ["1"])]).2.2.2]
  rfl

/-! ## Claim theorems: the extractor -/

/-- C8 counterexample: a parsed capabilities document whose service mapping
has only a `title` produces a service record that carries `abstract`,
`contact`, `fees` and `access_constraints` with null values — null-valued
keys are not dropped before the record is returned. -/
theorem extract_metadata_null_keys_counterexample :
    extractMetadata ⟨[("title", PyVal.str "T")], []⟩ Option.none
      = Except.ok ([("service", PyVal.dict
          [("title", PyVal.str "T"), ("abstract", PyVal.none),
           ("contact", PyVal.none), ("fees", PyVal.none),
           ("access_constraints", PyVal.none)])], []) := by
  rfl

/-- C8 (amended): for a truthy service mapping, `_extract_metadata` returns
a service record carrying exactly the five keys `title`, `abstract`,
`contact`, `fees`, `access_constraints` with the parser's values copied
verbatim (null standing in for an omitted field); no null, empty-string or
whitespace-only filtering is applied. -/
theorem extract_service_record_shape (sm : PyDict) (ls : List PyDict)
    (h : sm ≠ []) :
    extractMetadata ⟨sm, ls⟩ Option.none
      = Except.ok ([("service", PyVal.dict
          [("title", alistGetD sm "title" PyVal.none),
           ("abstract", alistGetD sm "abstract" PyVal.none),
           ("contact", alistGetD sm "contact" PyVal.none),
           ("fees", alistGetD sm "fees" PyVal.none),
           ("access_constraints", alistGetD sm "access_constraints" PyVal.none)])],
        []) := by
  have htr : (PyVal.dict sm).truthy = true := by
    cases sm with
    | nil => exact absurd rfl h
    | cons kv t => simp [PyVal.truthy]
  unfold extractMetadata
  simp [htr]

/-- C8 amended-claim witness. -/
theorem extract_service_record_shape_witness :
    extractMetadata ⟨[("title", PyVal.str "T"), ("fees", PyVal.str "")], []⟩
        Option.none
      = Except.ok ([("service", PyVal.dict
          [("title", PyVal.str "T"), ("abstract", PyVal.none),
           ("contact", PyVal.none), ("fees", PyVal.str ""),
           ("access_constraints", PyVal.none)])], []) := by
  exact extract_service_record_shape [("title", PyVal.str "T"), ("fees", PyVal.str "")]
    [] (by simp)

/-- C4 counterexample: a layer with a non-empty title and no abstract does
get an `abstract` key — `_process_layer_metadata` copies the title into it
(`elif title: metadata['abstract'] = title`), contradicting "no abstract key
is emitted at all". -/
theorem process_layer_title_only_counterexample :
    processLayerMetadata [("name", PyVal.str "L"), ("title", PyVal.str "T")]
      = Except.ok [("title", PyVal.str "T"), ("abstract", PyVal.str "T")] := by
  rfl

/-- The attribution step at the end of `_process_layer_metadata` never
touches the `abstract` key: whatever record the step emits agrees with its
input `md2` on `abstract`. -/
theorem legend_step_abstract (layer : PyDict) (md2 md : PyDict)
    (h : (if (alistGetD layer "legend" PyVal.none).truthy then
            match pyGetAttrGet (alistGetD layer "legend" PyVal.none) "url"
                (PyVal.str "") with
            | Except.error e => Except.error e
            | Except.ok url =>
                Except.ok (alistSet md2 "attribution" (PyVal.dict
                  [("title", PyVal.str ("Layer: " ++
                      pyStr (alistGetD layer "name" (PyVal.str "")))),
                   ("url", url)]))
          else Except.ok md2) = Except.ok md) :
    alistGet md "abstract" = alistGet md2 "abstract" := by
  by_cases hleg : (alistGetD layer "legend" PyVal.none).truthy = true
  · rw [if_pos hleg] at h
    cases hg : pyGetAttrGet (alistGetD layer "legend" PyVal.none) "url"
        (PyVal.str "") with
    | error e => rw [hg] at h; cases h
    | ok url =>
        rw [hg] at h
        rw [← Except.ok.inj h]
        exact alistGet_set_ne md2 "attribution" "abstract" _ (by decide)
  · rw [if_neg hleg] at h
    rw [← Except.ok.inj h]

/-- C4 (amended): whenever `_process_layer_metadata` emits a record: with a
non-empty title and a non-empty abstract the emitted abstract is
`"<title>: <abstract>"`; with only a non-empty abstract it is emitted
unchanged; with only a non-empty title the emitted abstract equals the
title (`elif title: metadata['abstract'] = title` — the code synthesizes it
rather than omitting the key). -/
theorem process_layer_abstract_rule (layer : PyDict) :
    (∀ t a : String, t ≠ "" → a ≠ "" →
      alistGetD layer "title" PyVal.none = PyVal.str t →
      alistGetD layer "abstract" PyVal.none = PyVal.str a →
      ∀ md, processLayerMetadata layer = Except.ok md →
        alistGet md "abstract" = some (PyVal.str (t ++ ": " ++ a))) ∧
    (∀ a : String, a ≠ "" →
      (alistGetD layer "title" PyVal.none).truthy = false →
      alistGetD layer "abstract" PyVal.none = PyVal.str a →
      ∀ md, processLayerMetadata layer = Except.ok md →
        alistGet md "abstract" = some (PyVal.str a)) ∧
    (∀ t : String, t ≠ "" →
      alistGetD layer "title" PyVal.none = PyVal.str t →
      (alistGetD layer "abstract" PyVal.none).truthy = false →
      ∀ md, processLayerMetadata layer = Except.ok md →
        alistGet md "abstract" = some (PyVal.str t)) := by
  have strTruthy : ∀ s : String, s ≠ "" → (PyVal.str s).truthy = true := by
    intro s hs
    have hE : s.isEmpty = false := by
      cases hE2 : s.isEmpty
      · rfl
      · exact absurd ((String.isEmpty_iff s).mp hE2) hs
    simp [PyVal.truthy, hE]
  refine ⟨?_, ?_, ?_⟩
  · intro t a ht0 ha0 ht ha md hmd
    have htE := strTruthy t ht0
    have haE := strTruthy a ha0
    have heq : processLayerMetadata layer
        = (if (alistGetD layer "legend" PyVal.none).truthy then
            match pyGetAttrGet (alistGetD layer "legend" PyVal.none) "url"
                (PyVal.str "") with
            | Except.error e => Except.error e
            | Except.ok url =>
                Except.ok (alistSet
                  (alistSet (alistSet [] "title" (PyVal.str t)) "abstract"
                    (PyVal.str (t ++ ": " ++ a)))
                  "attribution" (PyVal.dict
                  [("title", PyVal.str ("Layer: " ++
                      pyStr (alistGetD layer "name" (PyVal.str "")))),
                   ("url", url)]))
          else Except.ok (alistSet (alistSet [] "title" (PyVal.str t))
            "abstract" (PyVal.str (t ++ ": " ++ a)))) := by
      simp only [processLayerMetadata]
      rw [ht, ha, htE, haE]
      simp [pyStr]
    rw [heq] at hmd
    rw [legend_step_abstract layer _ md hmd]
    simp [alistGet, alistSet]
  · intro a ha0 ht ha md hmd
    have haE := strTruthy a ha0
    have heq : processLayerMetadata layer
        = (if (alistGetD layer "legend" PyVal.none).truthy then
            match pyGetAttrGet (alistGetD layer "legend" PyVal.none) "url"
                (PyVal.str "") with
            | Except.error e => Except.error e
            | Except.ok url =>
                Except.ok (alistSet (alistSet [] "abstract" (PyVal.str a))
                  "attribution" (PyVal.dict
                  [("title", PyVal.str ("Layer: " ++
                      pyStr (alistGetD layer "name" (PyVal.str "")))),
                   ("url", url)]))
          else Except.ok (alistSet [] "abstract" (PyVal.str a))) := by
      simp only [processLayerMetadata]
      rw [ht, ha, haE]
      simp
    rw [heq] at hmd
    rw [legend_step_abstract layer _ md hmd]
    simp [alistGet, alistSet]
  · intro t ht0 ht ha md hmd
    have htE := strTruthy t ht0
    have heq : processLayerMetadata layer
        = (if (alistGetD layer "legend" PyVal.none).truthy then
            match pyGetAttrGet (alistGetD layer "legend" PyVal.none) "url"
                (PyVal.str "") with
            | Except.error e => Except.error e
            | Except.ok url =>
                Except.ok (alistSet
                  (alistSet (alistSet [] "title" (PyVal.str t)) "abstract"
                    (PyVal.str t))
                  "attribution" (PyVal.dict
                  [("title", PyVal.str ("Layer: " ++
                      pyStr (alistGetD layer "name" (PyVal.str "")))),
                   ("url", url)]))
          else Except.ok (alistSet (alistSet [] "title" (PyVal.str t))
            "abstract" (PyVal.str t))) := by
      simp only [processLayerMetadata]
      rw [ht, ha, htE]
      simp
    rw [heq] at hmd
    rw [legend_step_abstract layer _ md hmd]
    simp [alistGet, alistSet]

/-- C4 amended-claim witness: both fields, abstract only, and title only. -/
theorem process_layer_abstract_rule_witness :
    alistGet [("title", PyVal.str "T"), ("abstract", PyVal.str ("T" ++ ": " ++ "A"))]
        "abstract" = some (PyVal.str ("T" ++ ": " ++ "A")) ∧
    alistGet [("abstract", PyVal.str "A")] "abstract" = some (PyVal.str "A") ∧
    alistGet [("title", PyVal.str "T"), ("abstract", PyVal.str "T")] "abstract"
      = some (PyVal.str "T") := by
  refine ⟨?_, ?_, ?_⟩
  · exact (process_layer_abstract_rule
      [("title", PyVal.str "T"), ("abstract", PyVal.str "A")]).1
      "T" "A" (by decide) (by decide) rfl rfl
      [("title", PyVal.str "T"), ("abstract", PyVal.str ("T" ++ ": " ++ "A"))] rfl
  · exact (process_layer_abstract_rule [("abstract", PyVal.str "A")]).2.1
      "A" (by decide) rfl rfl [("abstract", PyVal.str "A")] rfl
  · exact (process_layer_abstract_rule [("title", PyVal.str "T")]).2.2
      "T" (by decide) rfl rfl
      [("title", PyVal.str "T"), ("abstract", PyVal.str "T")] rfl

/-! ## Claim theorems: the layer resolver -/

/-- A candidate layer record whose `name` value, when the key is present,
is a string (the situation in which tiers two and three of the resolver can
run `.lower()` without raising). -/
def nameOk (l : PyDict) : Bool :=
  match alistGet l "name" with
  | some (PyVal.str _) => true
  | Option.none => true
  | some _ => false

/-- Tier-two test as the spec states it: case-insensitive name equality
(with the code's `get('name', '')` default for an absent key). -/
def ciNameMatch (layerName : String) (l : PyDict) : Bool :=
  match alistGetD l "name" (PyVal.str "") with
  | PyVal.str s => strLower s = strLower layerName
  | _ => false

/-- Tier-three test as the spec states it: case-insensitive substring
containment of the requested name within the candidate's name. -/
def subNameMatch (layerName : String) (l : PyDict) : Bool :=
  match alistGetD l "name" (PyVal.str "") with
  | PyVal.str s => strContains (strLower s) (strLower layerName)
  | _ => false

theorem tierCaseInsensitive_eq (layers : List PyDict) (layerName : String)
    (h : ∀ l ∈ layers, nameOk l = true) :
    tierCaseInsensitive layers (strLower layerName)
      = Except.ok (layers.find? (ciNameMatch layerName)) := by
  induction layers with
  | nil => rfl
  | cons l t ih =>
      have hl := h l (List.mem_cons_self l t)
      have hname : ∃ s, alistGetD l "name" (PyVal.str "") = PyVal.str s := by
        unfold nameOk at hl
        unfold alistGetD
        cases hg : alistGet l "name" with
        | none => exact ⟨"", rfl⟩
        | some v =>
            cases v with
            | str s => exact ⟨s, rfl⟩
            | none => rw [hg] at hl; simp at hl
            | list m => rw [hg] at hl; simp at hl
            | dict m => rw [hg] at hl; simp at hl
      rcases hname with ⟨s, hs⟩
      unfold tierCaseInsensitive
      rw [hs]
      simp only [pyLower]
      by_cases he : strLower s = strLower layerName
      · simp [he, List.find?, ciNameMatch, hs]
      · simp [he, List.find?, ciNameMatch, hs,
          ih (fun l2 hm => h l2 (List.mem_cons_of_mem _ hm))]

theorem tierSubstring_eq (layers : List PyDict) (layerName : String)
    (h : ∀ l ∈ layers, nameOk l = true) :
    tierSubstring layers (strLower layerName)
      = Except.ok (layers.find? (subNameMatch layerName)) := by
  induction layers with
  | nil => rfl
  | cons l t ih =>
      have hl := h l (List.mem_cons_self l t)
      have hname : ∃ s, alistGetD l "name" (PyVal.str "") = PyVal.str s := by
        unfold nameOk at hl
        unfold alistGetD
        cases hg : alistGet l "name" with
        | none => exact ⟨"", rfl⟩
        | some v =>
            cases v with
            | str s => exact ⟨s, rfl⟩
            | none => rw [hg] at hl; simp at hl
            | list m => rw [hg] at hl; simp at hl
            | dict m => rw [hg] at hl; simp at hl
      rcases hname with ⟨s, hs⟩
      unfold tierSubstring
      rw [hs]
      simp only [pyLower]
      by_cases he : strContains (strLower s) (strLower layerName) = true
      · simp [he, List.find?, subNameMatch, hs]
      · rw [Bool.not_eq_true] at he
        simp [he, List.find?, subNameMatch, hs,
          ih (fun l2 hm => h l2 (List.mem_cons_of_mem _ hm))]

/-- C5 counterexample: a candidate whose `name` key holds null makes the
resolver raise (`None.lower()` in tier two) instead of "never raising": the
error only gets caught further out, at the fetch boundary. -/
theorem find_layer_null_name_counterexample :
    findLayerMetadata ⟨[], [[("name", PyVal.none)]]⟩ "roads"
      = Except.error "AttributeError: object has no attribute lower" := by
  rfl

/-- C5 (amended): provided every candidate's `name` value is a string when
present (a null name makes tiers two and three raise, caught only at the
fetch boundary), `_find_layer_metadata` evaluates exactly three tiers in
order — exact name equality, case-insensitive equality, case-insensitive
substring containment of the requested name — processing the first matching
candidate in iteration order, and with no match returns `{}` and emits a
warning. -/
theorem find_layer_three_tier (caps : Capabilities) (layerName : String)
    (h : ∀ l ∈ caps.layersList, nameOk l = true) :
    findLayerMetadata caps layerName
      = match caps.layersList.find?
          (fun l => pyEqStr (alistGetD l "name" PyVal.none) layerName) with
        | some l => Except.map (fun md => (md, [])) (processLayerMetadata l)
        | Option.none =>
          match caps.layersList.find? (ciNameMatch layerName) with
          | some l => Except.map (fun md => (md, [])) (processLayerMetadata l)
          | Option.none =>
            match caps.layersList.find? (subNameMatch layerName) with
            | some l => Except.map (fun md => (md, [])) (processLayerMetadata l)
            | Option.none => Except.ok ([], [LogMsg.layerNotFound layerName]) := by
  dsimp only [findLayerMetadata]
  cases h1 : caps.layersList.find?
      (fun l => pyEqStr (alistGetD l "name" PyVal.none) layerName) with
  | some l => rfl
  | none =>
      rw [tierCaseInsensitive_eq caps.layersList layerName h]
      cases h2 : caps.layersList.find? (ciNameMatch layerName) with
      | some l => rfl
      | none =>
          rw [tierSubstring_eq caps.layersList layerName h]
          cases h3 : caps.layersList.find? (subNameMatch layerName) with
          | some l => rfl
          | none => rfl

/-- C5 amended-claim witness at the spec example: exact hit on `roads`,
case-insensitive hit on `BUILDINGS`, substring hit on `landuse.parcels`,
and `{}` plus a warning for `nonexistent`. -/
theorem find_layer_three_tier_witness :
    findLayerMetadata ⟨[],
        [[("name", PyVal.str "roads"), ("title", PyVal.str "Roads Layer"),
          ("abstract", PyVal.str "Road network")],
         [("name", PyVal.str "BUILDINGS"), ("title", PyVal.str "Buildings Layer")],
         [("name", PyVal.str "landuse.parcels"), ("title", PyVal.str "Land Parcels")]]⟩
        "buildings"
      = Except.ok ([("title", PyVal.str "Buildings Layer"),
          ("abstract", PyVal.str "Buildings Layer")], []) ∧
    findLayerMetadata ⟨[],
        [[("name", PyVal.str "roads"), ("title", PyVal.str "Roads Layer"),
          ("abstract", PyVal.str "Road network")],
         [("name", PyVal.str "BUILDINGS"), ("title", PyVal.str "Buildings Layer")],
         [("name", PyVal.str "landuse.parcels"), ("title", PyVal.str "Land Parcels")]]⟩
        "parcels"
      = Except.ok ([("title", PyVal.str "Land Parcels"),
          ("abstract", PyVal.str "Land Parcels")], []) ∧
    findLayerMetadata ⟨[],
        [[("name", PyVal.str "roads"), ("title", PyVal.str "Roads Layer"),
          ("abstract", PyVal.str "Road network")],
         [("name", PyVal.str "BUILDINGS"), ("title", PyVal.str "Buildings Layer")],
         [("name", PyVal.str "landuse.parcels"), ("title", PyVal.str "Land Parcels")]]⟩
        "nonexistent"
      = Except.ok ([], [LogMsg.layerNotFound "nonexistent"]) := by
  refine ⟨?_, ?_, ?_⟩
  · refine Eq.trans (find_layer_three_tier ⟨[],
      [[("name", PyVal.str "roads"), ("title", PyVal.str "Roads Layer"),
        ("abstract", PyVal.str "Road network")],
       [("name", PyVal.str "BUILDINGS"), ("title", PyVal.str "Buildings Layer")],
       [("name", PyVal.str "landuse.parcels"), ("title", PyVal.str "Land Parcels")]]⟩
      "buildings" (by decide)) ?_
    rfl
  · refine Eq.trans (find_layer_three_tier ⟨[],
      [[("name", PyVal.str "roads"), ("title", PyVal.str "Roads Layer"),
        ("abstract", PyVal.str "Road network")],
       [("name", PyVal.str "BUILDINGS"), ("title", PyVal.str "Buildings Layer")],
       [("name", PyVal.str "landuse.parcels"), ("title", PyVal.str "Land Parcels")]]⟩
      "parcels" (by decide)) ?_
    rfl
  · refine Eq.trans (find_layer_three_tier ⟨[],
      [[("name", PyVal.str "roads"), ("title", PyVal.str "Roads Layer"),
        ("abstract", PyVal.str "Road network")],
       [("name", PyVal.str "BUILDINGS"), ("title", PyVal.str "Buildings Layer")],
       [("name", PyVal.str "landuse.parcels"), ("title", PyVal.str "Land Parcels")]]⟩
      "nonexistent" (by decide)) ?_
    rfl

end MapproxyMetadata
